import Mathlib

/-!
Verification of the listing/escrow ledger of the `hardhat-nft-marketplace-fcc`
repository.  The repository ships only the deployment script and the unit
tests (`src/test/unit/NftMarketplace.test.js`); the `NftMarketplace` contract
itself is not part of the visible sources, so the ledger below is modelled
from the specification (`spec.md`, sections 3-7), with the unit tests taken as
the authority wherever they directly pin down behaviour of the missing
contract.

Modelling conventions:
* identities (externally owned accounts, contract addresses) are `Nat`;
* an asset key is the pair (collection address, asset id), both `Nat`;
* amounts are `Nat` (the EVM's uint256 is non-negative; `price <= 0` is
  `price = 0`);
* the two ledger mappings are total functions with the Solidity mapping
  default (`unlisted`, `0`) as the value of absent keys;
* each public operation returns `Except Err (World × List Step)`:
  an `Err` models a revert (the caller keeps the pre-state: full rollback),
  and the `Step` list records the external calls the operation performed,
  each step carrying a snapshot of the ledger at the moment the call was
  issued, which makes the checks-effects-interactions ordering of the spec
  (section 5) a statable property.
-/

namespace NftMarket

/-- Identity of an account or contract. -/
abbrev Address := Nat

/-- An asset key: (collection address, asset id). -/
abbrev AssetKey := Nat × Nat

/-- Modelled from the spec: a `Listing` record of the missing
`NftMarketplace` contract (spec section 3): the current lister and the
strictly positive asking price; `price = 0` denotes "not listed". -/
structure Listing where
  seller : Address
  price : Nat
  deriving Repr, DecidableEq

/-- The unlisted sentinel: the Solidity mapping default value, returned by
`getListing` for a key with no active listing. -/
def unlisted : Listing := ⟨0, 0⟩

/-- Modelled from the spec: the error kinds of the missing `NftMarketplace`
contract (spec section 7).  The unit tests use the concrete Solidity names
`PriceMustBeAboveZero` and `NotApprovedForMarketplace` for the first two. -/
inductive Err where
  | InvalidPrice
  | NotApproved
  | NotOwner
  | AlreadyListed (key : AssetKey)
  | NotListed (key : AssetKey)
  | PriceNotMet (key : AssetKey) (price : Nat)
  | NoProceeds
  | TransferFailed
  deriving Repr, DecidableEq

/-- Modelled from the spec: the external asset-ownership registry (the ERC721
collection, spec section 6): owner of record per asset, per-asset one-time
transfer approval (`0` = none), and blanket operator approval. -/
structure Registry where
  owners : AssetKey → Address
  approvedFor : AssetKey → Address
  approvedAll : Address → Address → Bool

/-- Modelled from the spec: the registry reports `operator` as an approved
transfer agent for `key` held by `owner`, either via the one-time per-asset
approval or via a blanket approval (spec sections 4.1 and 6). -/
abbrev approvedForMarketplace (operator owner : Address) (key : AssetKey)
    (r : Registry) : Prop :=
  r.approvedFor key = operator ∨ r.approvedAll owner operator = true

/-- Modelled from the spec: the marketplace ledger state of the missing
`NftMarketplace` contract (spec section 3): the listing mapping `s_listings`
and the proceeds mapping `s_proceeds`. -/
structure Ledger where
  listings : AssetKey → Listing
  proceeds : Address → Nat

/-- The whole world an operation acts on: the external registry plus the
marketplace ledger. -/
structure World where
  registry : Registry
  ledger : Ledger

/-- An external call issued by an operation, carrying a snapshot of the
ledger at the moment the call left the marketplace: `transferCall` is the
registry's `transferFrom`, `payCall` the outbound payment of
`withdrawProceeds`. -/
inductive Step where
  | transferCall (source target : Address) (key : AssetKey) (ledgerAt : Ledger)
  | payCall (target : Address) (amount : Nat) (ledgerAt : Ledger)

/-- The ledger snapshot a `Step` carries. -/
def Step.ledgerAt : Step → Ledger
  | .transferCall _ _ _ l => l
  | .payCall _ _ l => l

/-- Modelled from the spec: the registry's `transferFrom` (spec sections 6
and 9): it succeeds only if `source` is the current owner and the caller
`operator` is the owner itself or an approved agent; on success ownership
moves to `target` and the one-time approval is cleared; otherwise the call
fails fatally (surfaced by the ledger as `TransferFailed`). -/
def transferFrom (operator source target : Address) (key : AssetKey)
    (r : Registry) : Except Err Registry :=
  if r.owners key = source ∧
      (operator = source ∨ approvedForMarketplace operator source key r) then
    .ok { owners := fun k => if k = key then target else r.owners k,
          approvedFor := fun k => if k = key then 0 else r.approvedFor k,
          approvedAll := r.approvedAll }
  else
    .error .TransferFailed

/-- Modelled from the spec: `listItem` of the missing `NftMarketplace`
contract (spec section 4.1): rejects a zero price (`InvalidPrice`), a caller
who is not the registry's owner of record (`NotOwner`), a missing transfer
approval (`NotApproved`), and an already-listed key (`AlreadyListed`);
otherwise records the listing.  On one point the spec's words are overridden
by the repository's own unit test (`src/test/unit/NftMarketplace.test.js`,
lines 56-62): the spec claims a re-list by the current seller is allowed as a
price update, but the test has the same seller list the same key twice and
asserts the second call reverts with `AlreadyListed`, so the already-listed
check here rejects every caller, the current seller included.  No asset
transfer happens at listing time. -/
def listItem (mkt caller : Address) (key : AssetKey) (price : Nat)
    (w : World) : Except Err (World × List Step) :=
  if price = 0 then
    .error .InvalidPrice
  else if w.registry.owners key ≠ caller then
    .error .NotOwner
  else if ¬ approvedForMarketplace mkt caller key w.registry then
    .error .NotApproved
  else if (w.ledger.listings key).price ≠ 0 then
    .error (.AlreadyListed key)
  else
    .ok ({ w with ledger := { w.ledger with
            listings := fun k => if k = key then ⟨caller, price⟩
                                 else w.ledger.listings k } }, [])

/-- Modelled from the spec: `buyItem` of the missing `NftMarketplace`
contract (spec section 4.1): rejects an unlisted key (`NotListed`) and an
attached payment below the asking price (`PriceNotMet`); otherwise it first
deletes the listing and credits the seller's proceeds by the full payment
(no refund of an overpayment), and only then issues the registry transfer
call — the `Step` records the ledger as it stood when the external call was
made.  A failing transfer aborts the whole operation (rollback: the caller
keeps the pre-state). -/
def buyItem (mkt caller : Address) (paid : Nat) (key : AssetKey)
    (w : World) : Except Err (World × List Step) :=
  let listing := w.ledger.listings key
  if listing.price = 0 then
    .error (.NotListed key)
  else if paid < listing.price then
    .error (.PriceNotMet key listing.price)
  else
    let ledger1 : Ledger :=
      { listings := fun k => if k = key then unlisted else w.ledger.listings k,
        proceeds := fun a => if a = listing.seller then w.ledger.proceeds a + paid
                             else w.ledger.proceeds a }
    match transferFrom mkt listing.seller caller key w.registry with
    | .error e => .error e
    | .ok reg1 =>
        .ok ({ registry := reg1, ledger := ledger1 },
             [.transferCall listing.seller caller key ledger1])

/-- Modelled from the spec: `cancelListing` of the missing `NftMarketplace`
contract (spec section 4.1): rejects an unlisted key (`NotListed`) and a
caller other than the listing's seller (`NotOwner`); otherwise deletes the
listing.  No external call is made. -/
def cancelListing (caller : Address) (key : AssetKey)
    (w : World) : Except Err (World × List Step) :=
  let listing := w.ledger.listings key
  if listing.price = 0 then
    .error (.NotListed key)
  else if listing.seller ≠ caller then
    .error .NotOwner
  else
    .ok ({ w with ledger := { w.ledger with
            listings := fun k => if k = key then unlisted
                                 else w.ledger.listings k } }, [])

/-- Modelled from the spec: `updateListing` of the missing `NftMarketplace`
contract (spec section 4.1): the same existence and seller checks as
`cancelListing` (`NotListed`, `NotOwner`), then rejects a non-positive new
price (`InvalidPrice`); otherwise overwrites the price, the seller
unchanged.  No external call is made. -/
def updateListing (caller : Address) (key : AssetKey) (newPrice : Nat)
    (w : World) : Except Err (World × List Step) :=
  let listing := w.ledger.listings key
  if listing.price = 0 then
    .error (.NotListed key)
  else if listing.seller ≠ caller then
    .error .NotOwner
  else if newPrice = 0 then
    .error .InvalidPrice
  else
    .ok ({ w with ledger := { w.ledger with
            listings := fun k => if k = key then ⟨listing.seller, newPrice⟩
                                 else w.ledger.listings k } }, [])

/-- Modelled from the spec: `withdrawProceeds` of the missing
`NftMarketplace` contract (spec section 4.1): rejects a caller with zero
accrued proceeds (`NoProceeds`); otherwise zeroes the caller's proceeds
first and only then issues the outbound payment — the `Step` records the
ledger as it stood when the payment left. -/
def withdrawProceeds (caller : Address)
    (w : World) : Except Err (World × List Step) :=
  let amount := w.ledger.proceeds caller
  if amount = 0 then
    .error .NoProceeds
  else
    let ledger1 : Ledger :=
      { w.ledger with
        proceeds := fun a => if a = caller then 0 else w.ledger.proceeds a }
    .ok ({ w with ledger := ledger1 }, [.payCall caller amount ledger1])

/-- Modelled from the spec: the read accessor `getListing` (spec
section 4.1); returns the `unlisted` sentinel for a key with no active
listing. -/
def getListing (w : World) (key : AssetKey) : Listing :=
  w.ledger.listings key

/-- Modelled from the spec: the read accessor `getProceeds` (spec
section 4.1). -/
def getProceeds (w : World) (a : Address) : Nat :=
  w.ledger.proceeds a

/-- The post-state of an operation result: the new world on success, the
unchanged pre-state on a revert. -/
def afterOk (r : Except Err (World × List Step)) (w : World) : World :=
  match r with
  | .ok p => p.1
  | .error _ => w

/-- The external calls an operation result performed (none on a revert). -/
def stepsOf (r : Except Err (World × List Step)) : List Step :=
  match r with
  | .ok p => p.2
  | .error _ => []

/-! Concrete scenario mirroring the unit tests: the marketplace at address
100, the deployer (address 1) mints asset 0 of the collection at address 10,
approves the marketplace and lists at price 5; the player is address 2. -/

/-- The marketplace's own address in the concrete scenario. -/
def mktA : Address := 100

/-- The deployer/seller in the concrete scenario. -/
def sellerA : Address := 1

/-- The player/buyer in the concrete scenario. -/
def buyerA : Address := 2

/-- The asset key (collection 10, asset id 0) in the concrete scenario. -/
def keyA : AssetKey := (10, 0)

/-- The initial world: the seller owns the asset and has approved the
marketplace; nothing is listed, nobody has proceeds. -/
def w0 : World :=
  { registry := { owners := fun k => if k = keyA then sellerA else 0,
                  approvedFor := fun k => if k = keyA then mktA else 0,
                  approvedAll := fun _ _ => false },
    ledger := { listings := fun _ => unlisted, proceeds := fun _ => 0 } }

/-- The world after the seller lists the asset at price 5. -/
def w1 : World := afterOk (listItem mktA sellerA keyA 5 w0) w0

/-- The result of the buyer purchasing the listed asset at the exact price. -/
def buyRes : Except Err (World × List Step) := buyItem mktA buyerA 5 keyA w1

/-- The world after the purchase. -/
def w2 : World := afterOk buyRes w1

/-- The result of the seller withdrawing the accrued proceeds. -/
def wdRes : Except Err (World × List Step) := withdrawProceeds sellerA w2

/-- The world after the withdrawal. -/
def w3 : World := afterOk wdRes w2

/-- An operation result is a success (no revert). -/
def isOk (r : Except Err (World × List Step)) : Bool :=
  match r with
  | .ok _ => true
  | .error _ => false

/-- The external transfer call issued by the concrete purchase. -/
def buyStep : Step := .transferCall sellerA buyerA keyA w2.ledger

/-- The outbound payment issued by the concrete withdrawal. -/
def wdStep : Step := .payCall sellerA 5 w3.ledger

/-- A successful purchase, in full: with an existing listing, sufficient
payment, and a listing still valid at the registry (the seller owns the asset
and the marketplace is approved), `buyItem` succeeds; the result moves the
asset to the buyer at the registry, deletes the listing, credits the seller's
proceeds by the full payment, and issues exactly one external transfer call,
made on the already-mutated ledger. -/
theorem buyItem_ok (mkt caller : Address) (paid : Nat) (key : AssetKey) (w : World)
    (hlisted : (w.ledger.listings key).price ≠ 0)
    (hge : (w.ledger.listings key).price ≤ paid)
    (hown : w.registry.owners key = (w.ledger.listings key).seller)
    (happ : approvedForMarketplace mkt (w.ledger.listings key).seller key w.registry) :
    buyItem mkt caller paid key w = .ok
      ({ registry := { owners := fun k => if k = key then caller else w.registry.owners k,
                       approvedFor := fun k => if k = key then 0 else w.registry.approvedFor k,
                       approvedAll := w.registry.approvedAll },
         ledger := { listings := fun k => if k = key then unlisted else w.ledger.listings k,
                     proceeds := fun a => if a = (w.ledger.listings key).seller
                                          then w.ledger.proceeds a + paid
                                          else w.ledger.proceeds a } },
       [.transferCall (w.ledger.listings key).seller caller key
          { listings := fun k => if k = key then unlisted else w.ledger.listings k,
            proceeds := fun a => if a = (w.ledger.listings key).seller
                                 then w.ledger.proceeds a + paid
                                 else w.ledger.proceeds a }]) := by
  have hnotlt : ¬ paid < (w.ledger.listings key).price := not_lt.mpr hge
  simp only [buyItem, transferFrom]
  rw [if_neg hlisted, if_neg hnotlt, if_pos ⟨hown, Or.inr happ⟩]

/-- C1 (counterexample): after the seller lists the asset at price 5, a
second `listItem` by the very same seller at price 7 does not succeed as a
price update: it reverts with `AlreadyListed`, exactly as the repository's
unit test asserts, refuting the claim's re-listing allowance. -/
theorem listItem_relist_same_seller_rejected :
    listItem mktA sellerA keyA 7 w1 = .error (.AlreadyListed keyA) := rfl

/-- C1 (amended): for every (collection, assetId) that already has an active
listing, a `listItem` call that passes the price, registry-ownership and
approval checks fails with `AlreadyListed` whether or not the caller is the
current seller: `listItem` offers no re-listing/price-update path, the key
stays LISTED with its old terms. -/
theorem listItem_alreadyListed (mkt caller : Address) (key : AssetKey)
    (price : Nat) (w : World)
    (hp : price ≠ 0)
    (hown : w.registry.owners key = caller)
    (happ : approvedForMarketplace mkt caller key w.registry)
    (hlisted : (w.ledger.listings key).price ≠ 0) :
    listItem mkt caller key price w = .error (.AlreadyListed key) ∧
    getListing (afterOk (listItem mkt caller key price w) w) key
      = getListing w key := by
  have h : listItem mkt caller key price w = .error (.AlreadyListed key) := by
    simp only [listItem]
    rw [if_neg hp, if_neg (not_not_intro hown), if_neg (not_not_intro happ),
      if_pos hlisted]
  exact ⟨h, by rw [h]; rfl⟩

/-- C1 (witness): the amended theorem at the concrete scenario, the caller
being the current seller. -/
theorem listItem_alreadyListed_witness :
    listItem mktA sellerA keyA 7 w1 = .error (.AlreadyListed keyA) ∧
    getListing (afterOk (listItem mktA sellerA keyA 7 w1) w1) keyA
      = getListing w1 keyA :=
  listItem_alreadyListed mktA sellerA keyA 7 w1 (by decide) (by decide)
    (by decide) (by decide)

/-- C8: for every caller, collection and asset id, `listItem` with a price
less than or equal to zero fails with `InvalidPrice` and creates no listing
(the revert leaves the pre-state untouched). -/
theorem listItem_invalidPrice (mkt caller : Address) (key : AssetKey)
    (price : Nat) (w : World) (hp : price ≤ 0) :
    listItem mkt caller key price w = .error .InvalidPrice ∧
    afterOk (listItem mkt caller key price w) w = w := by
  have h : listItem mkt caller key price w = .error .InvalidPrice := by
    simp only [listItem]
    rw [if_pos (Nat.le_zero.mp hp)]
  exact ⟨h, by rw [h]; rfl⟩

/-- C8 (witness): listing at price 0 in the concrete scenario reverts with
`InvalidPrice`. -/
theorem listItem_invalidPrice_witness :
    listItem mktA sellerA keyA 0 w0 = .error .InvalidPrice ∧
    afterOk (listItem mktA sellerA keyA 0 w0) w0 = w0 :=
  listItem_invalidPrice mktA sellerA keyA 0 w0 (by decide)

/-- C3: for every existing listing whose caller is its seller,
`updateListing` with a new price that is not strictly positive fails with
`InvalidPrice` and leaves the listing unchanged. -/
theorem updateListing_invalidPrice (caller : Address) (key : AssetKey)
    (newPrice : Nat) (w : World)
    (hlisted : (w.ledger.listings key).price ≠ 0)
    (hseller : (w.ledger.listings key).seller = caller)
    (hp : newPrice ≤ 0) :
    updateListing caller key newPrice w = .error .InvalidPrice ∧
    getListing (afterOk (updateListing caller key newPrice w) w) key
      = getListing w key := by
  have h : updateListing caller key newPrice w = .error .InvalidPrice := by
    simp only [updateListing]
    rw [if_neg hlisted, if_neg (not_not_intro hseller),
      if_pos (Nat.le_zero.mp hp)]
  exact ⟨h, by rw [h]; rfl⟩

/-- C3 (witness): the seller updating the concrete listing to price 0
reverts with `InvalidPrice`, the listing intact. -/
theorem updateListing_invalidPrice_witness :
    updateListing sellerA keyA 0 w1 = .error .InvalidPrice ∧
    getListing (afterOk (updateListing sellerA keyA 0 w1) w1) keyA
      = getListing w1 keyA :=
  updateListing_invalidPrice sellerA keyA 0 w1 (by decide) (by decide) (by decide)

/-- C7: `cancelListing` and `updateListing` on a key with no active listing
fail with `NotListed`; on an active listing they fail with `NotOwner` for
any caller other than the listing's seller; called by the seller,
`cancelListing` succeeds and deletes the listing, and `updateListing` (with
a valid, strictly positive new price — its separate `InvalidPrice`
precondition) succeeds and overwrites the price, the seller unchanged. -/
theorem cancel_update_access_control (caller : Address) (key : AssetKey)
    (newPrice : Nat) (w : World) :
    ((w.ledger.listings key).price = 0 →
        cancelListing caller key w = .error (.NotListed key) ∧
        updateListing caller key newPrice w = .error (.NotListed key)) ∧
    ((w.ledger.listings key).price ≠ 0 →
      (w.ledger.listings key).seller ≠ caller →
        cancelListing caller key w = .error .NotOwner ∧
        updateListing caller key newPrice w = .error .NotOwner) ∧
    ((w.ledger.listings key).price ≠ 0 →
      (w.ledger.listings key).seller = caller →
        (isOk (cancelListing caller key w) = true ∧
         getListing (afterOk (cancelListing caller key w) w) key = unlisted) ∧
        (newPrice ≠ 0 →
         isOk (updateListing caller key newPrice w) = true ∧
         getListing (afterOk (updateListing caller key newPrice w) w) key
           = ⟨(w.ledger.listings key).seller, newPrice⟩)) := by
  refine ⟨fun h0 => ⟨?_, ?_⟩, fun hl hs => ⟨?_, ?_⟩,
    fun hl hs => ⟨?_, fun hnp => ?_⟩⟩
  · simp only [cancelListing]; rw [if_pos h0]
  · simp only [updateListing]; rw [if_pos h0]
  · simp only [cancelListing]; rw [if_neg hl, if_pos hs]
  · simp only [updateListing]; rw [if_neg hl, if_pos hs]
  · have hc : cancelListing caller key w = .ok
        ({ w with ledger := { w.ledger with
            listings := fun k => if k = key then unlisted
                                 else w.ledger.listings k } }, []) := by
      simp only [cancelListing]
      rw [if_neg hl, if_neg (not_not_intro hs)]
    exact ⟨by rw [hc]; rfl, by rw [hc]; simp [afterOk, getListing]⟩
  · have hu : updateListing caller key newPrice w = .ok
        ({ w with ledger := { w.ledger with
            listings := fun k => if k = key
                                 then ⟨(w.ledger.listings key).seller, newPrice⟩
                                 else w.ledger.listings k } }, []) := by
      simp only [updateListing]
      rw [if_neg hl, if_neg (not_not_intro hs), if_neg hnp]
    exact ⟨by rw [hu]; rfl, by rw [hu]; simp [afterOk, getListing]⟩

/-- C7 (witness): the seller cancels the concrete listing (success, key
unlisted afterwards) and, on a fresh listing, a non-seller's cancel reverts
with `NotOwner`. -/
theorem cancel_update_access_control_witness :
    (isOk (cancelListing sellerA keyA w1) = true ∧
     getListing (afterOk (cancelListing sellerA keyA w1) w1) keyA = unlisted) ∧
    (cancelListing buyerA keyA w1 = .error .NotOwner ∧
     updateListing buyerA keyA 9 w1 = .error .NotOwner) ∧
    (cancelListing buyerA keyA w0 = .error (.NotListed keyA) ∧
     updateListing buyerA keyA 9 w0 = .error (.NotListed keyA)) :=
  ⟨((cancel_update_access_control sellerA keyA 9 w1).2.2
      (by decide) (by decide)).1,
   (cancel_update_access_control buyerA keyA 9 w1).2.1 (by decide) (by decide),
   (cancel_update_access_control buyerA keyA 9 w0).1 (by decide)⟩

/-- C2: for every active listing (price strictly positive) still valid at
the registry (the seller owns the asset and the marketplace is approved),
`buyItem` with payment below the price fails with `PriceNotMet` (a revert:
nothing changes), and with payment exactly the price it succeeds, the
seller's proceeds grow by exactly the price, and the listing is deleted
(`getListing` then returns the unlisted sentinel). -/
theorem buyItem_price_gate (mkt caller : Address) (paid : Nat)
    (key : AssetKey) (w : World)
    (hlisted : (w.ledger.listings key).price ≠ 0)
    (hown : w.registry.owners key = (w.ledger.listings key).seller)
    (happ : approvedForMarketplace mkt ((w.ledger.listings key).seller)
              key w.registry) :
    (paid < (w.ledger.listings key).price →
       buyItem mkt caller paid key w
         = .error (.PriceNotMet key ((w.ledger.listings key).price))) ∧
    (paid = (w.ledger.listings key).price →
       isOk (buyItem mkt caller paid key w) = true ∧
       getProceeds (afterOk (buyItem mkt caller paid key w) w)
           ((w.ledger.listings key).seller)
         = getProceeds w ((w.ledger.listings key).seller)
             + (w.ledger.listings key).price ∧
       getListing (afterOk (buyItem mkt caller paid key w) w) key
         = unlisted) := by
  constructor
  · intro hlt
    simp only [buyItem]
    rw [if_neg hlisted, if_pos hlt]
  · intro heq
    have hb := buyItem_ok mkt caller paid key w hlisted
      (le_of_eq heq.symm) hown happ
    refine ⟨by rw [hb]; rfl, ?_, ?_⟩
    · rw [hb]; simp [afterOk, getProceeds, heq]
    · rw [hb]; simp [afterOk, getListing]

/-- C2 (witness): in the concrete scenario, paying 3 against the price of 5
reverts with `PriceNotMet`; paying exactly 5 succeeds, credits the seller 5
and unlists the key. -/
theorem buyItem_price_gate_witness :
    (buyItem mktA buyerA 3 keyA w1 = .error (.PriceNotMet keyA 5)) ∧
    (isOk buyRes = true ∧ getProceeds w2 sellerA = 5 ∧
     getListing w2 keyA = unlisted) :=
  ⟨(buyItem_price_gate mktA buyerA 3 keyA w1 (by decide) (by decide)
      (by decide)).1 (by decide),
   (buyItem_price_gate mktA buyerA 5 keyA w1 (by decide) (by decide)
      (by decide)).2 (by decide)⟩

/-- C4: every successful `buyItem` credits the seller's proceeds by the full
attached payment, not just the asking price: with payment at least the price
(overpayment included) against a listing still valid at the registry, the
purchase succeeds and the proceeds grow by the whole payment — the excess is
never refunded to the buyer. -/
theorem buyItem_full_payment_credited (mkt caller : Address) (paid : Nat)
    (key : AssetKey) (w : World)
    (hlisted : (w.ledger.listings key).price ≠ 0)
    (hge : (w.ledger.listings key).price ≤ paid)
    (hown : w.registry.owners key = (w.ledger.listings key).seller)
    (happ : approvedForMarketplace mkt ((w.ledger.listings key).seller)
              key w.registry) :
    isOk (buyItem mkt caller paid key w) = true ∧
    getProceeds (afterOk (buyItem mkt caller paid key w) w)
        ((w.ledger.listings key).seller)
      = getProceeds w ((w.ledger.listings key).seller) + paid := by
  have hb := buyItem_ok mkt caller paid key w hlisted hge hown happ
  exact ⟨by rw [hb]; rfl, by rw [hb]; simp [afterOk, getProceeds]⟩

/-- C4 (witness): paying 9 against the concrete price of 5 succeeds and
credits the seller all 9. -/
theorem buyItem_full_payment_credited_witness :
    isOk (buyItem mktA buyerA 9 keyA w1) = true ∧
    getProceeds (afterOk (buyItem mktA buyerA 9 keyA w1) w1) sellerA = 9 :=
  buyItem_full_payment_credited mktA buyerA 9 keyA w1 (by decide) (by decide)
    (by decide) (by decide)

/-- C10: `buyItem` imposes no buyer-differs-from-seller restriction: the
seller calling `buyItem` on their own active listing with sufficient payment
succeeds, the listing is deleted and the seller's own proceeds grow by the
payment. -/
theorem buyItem_self_purchase (mkt : Address) (paid : Nat)
    (key : AssetKey) (w : World)
    (hlisted : (w.ledger.listings key).price ≠ 0)
    (hge : (w.ledger.listings key).price ≤ paid)
    (hown : w.registry.owners key = (w.ledger.listings key).seller)
    (happ : approvedForMarketplace mkt ((w.ledger.listings key).seller)
              key w.registry) :
    isOk (buyItem mkt ((w.ledger.listings key).seller) paid key w) = true ∧
    getListing
        (afterOk (buyItem mkt ((w.ledger.listings key).seller) paid key w) w)
        key = unlisted ∧
    getProceeds
        (afterOk (buyItem mkt ((w.ledger.listings key).seller) paid key w) w)
        ((w.ledger.listings key).seller)
      = getProceeds w ((w.ledger.listings key).seller) + paid := by
  have hb := buyItem_ok mkt ((w.ledger.listings key).seller) paid key w
    hlisted hge hown happ
  exact ⟨by rw [hb]; rfl, by rw [hb]; simp [afterOk, getListing],
    by rw [hb]; simp [afterOk, getProceeds]⟩

/-- C10 (witness): the concrete seller buys their own listing at the exact
price: success, key unlisted, own proceeds credited 5. -/
theorem buyItem_self_purchase_witness :
    isOk (buyItem mktA sellerA 5 keyA w1) = true ∧
    getListing (afterOk (buyItem mktA sellerA 5 keyA w1) w1) keyA
      = unlisted ∧
    getProceeds (afterOk (buyItem mktA sellerA 5 keyA w1) w1) sellerA = 5 :=
  buyItem_self_purchase mktA 5 keyA w1 (by decide) (by decide) (by decide)
    (by decide)

/-- C9: after every successful `buyItem`, the asset's owner of record at the
external registry is the buyer (the caller of `buyItem`). -/
theorem buyItem_transfers_ownership (mkt caller : Address) (paid : Nat)
    (key : AssetKey) (w w' : World) (steps : List Step)
    (h : buyItem mkt caller paid key w = .ok (w', steps)) :
    w'.registry.owners key = caller := by
  simp only [buyItem, transferFrom] at h
  by_cases h1 : (w.ledger.listings key).price = 0
  · rw [if_pos h1] at h; cases h
  · rw [if_neg h1] at h
    by_cases h2 : paid < (w.ledger.listings key).price
    · rw [if_pos h2] at h; cases h
    · rw [if_neg h2] at h
      by_cases h3 : w.registry.owners key = (w.ledger.listings key).seller ∧
          (mkt = (w.ledger.listings key).seller ∨
           approvedForMarketplace mkt ((w.ledger.listings key).seller)
             key w.registry)
      · rw [if_pos h3] at h
        cases h
        simp
      · rw [if_neg h3] at h; cases h

/-- C9 (witness): after the concrete purchase the registry reports the buyer
as the owner of the asset. -/
theorem buyItem_transfers_ownership_witness :
    w2.registry.owners keyA = buyerA :=
  buyItem_transfers_ownership mktA buyerA 5 keyA w1 w2 (stepsOf buyRes) rfl

/-- C5: checks-effects-interactions ordering.  In every successful
`buyItem`, the listing deletion and the proceeds credit are applied to the
ledger strictly before the external transfer call leaves: the ledger
snapshot every recorded external call carries already has the key unlisted
and the seller credited the full payment.  Likewise, in every successful
`withdrawProceeds`, the caller's proceeds are zeroed strictly before the
outbound payment: the snapshot at every recorded external call already shows
zero proceeds for the caller.  A reentrant call made during the external
call therefore observes the already-mutated ledger. -/
theorem mutations_precede_external_calls (mkt caller payer : Address)
    (paid : Nat) (key : AssetKey) (w v w' vp : World)
    (steps wsteps : List Step) :
    (buyItem mkt caller paid key w = .ok (w', steps) →
       ∀ s ∈ steps,
         ((Step.ledgerAt s).listings key).price = 0 ∧
         (Step.ledgerAt s).proceeds ((w.ledger.listings key).seller)
           = w.ledger.proceeds ((w.ledger.listings key).seller) + paid) ∧
    (withdrawProceeds payer v = .ok (vp, wsteps) →
       ∀ s ∈ wsteps, (Step.ledgerAt s).proceeds payer = 0) := by
  constructor
  · intro h s hs
    simp only [buyItem, transferFrom] at h
    by_cases h1 : (w.ledger.listings key).price = 0
    · rw [if_pos h1] at h; cases h
    · rw [if_neg h1] at h
      by_cases h2 : paid < (w.ledger.listings key).price
      · rw [if_pos h2] at h; cases h
      · rw [if_neg h2] at h
        by_cases h3 : w.registry.owners key = (w.ledger.listings key).seller ∧
            (mkt = (w.ledger.listings key).seller ∨
             approvedForMarketplace mkt ((w.ledger.listings key).seller)
               key w.registry)
        · rw [if_pos h3] at h
          cases h
          simp only [List.mem_singleton] at hs
          subst hs
          simp [Step.ledgerAt, unlisted]
        · rw [if_neg h3] at h; cases h
  · intro h s hs
    simp only [withdrawProceeds] at h
    by_cases h1 : v.ledger.proceeds payer = 0
    · rw [if_pos h1] at h; cases h
    · rw [if_neg h1] at h
      cases h
      simp only [List.mem_singleton] at hs
      subst hs
      simp [Step.ledgerAt]

/-- C5 (witness): in the concrete purchase, the snapshot carried by the
transfer call already has the key unlisted and the seller credited; in the
concrete withdrawal, the snapshot carried by the outbound payment already
shows zero proceeds for the seller. -/
theorem mutations_precede_external_calls_witness :
    (((Step.ledgerAt buyStep).listings keyA).price = 0 ∧
     (Step.ledgerAt buyStep).proceeds sellerA = 5) ∧
    (Step.ledgerAt wdStep).proceeds sellerA = 0 :=
  ⟨(mutations_precede_external_calls mktA buyerA sellerA 5 keyA w1 w2 w2 w3
      (stepsOf buyRes) (stepsOf wdRes)).1 rfl buyStep (List.Mem.head _),
   (mutations_precede_external_calls mktA buyerA sellerA 5 keyA w1 w2 w2 w3
      (stepsOf buyRes) (stepsOf wdRes)).2 rfl wdStep (List.Mem.head _)⟩

/-- C6: `withdrawProceeds` fails with `NoProceeds` exactly when the caller's
accrued proceeds are zero, and after every successful `withdrawProceeds` the
caller's `getProceeds` reads zero. -/
theorem withdrawProceeds_noProceeds_and_reset (c : Address) (w vp : World)
    (wsteps : List Step) :
    (withdrawProceeds c w = .error .NoProceeds ↔ getProceeds w c = 0) ∧
    (withdrawProceeds c w = .ok (vp, wsteps) → getProceeds vp c = 0) := by
  constructor
  · by_cases h1 : w.ledger.proceeds c = 0
    · simp only [withdrawProceeds]
      rw [if_pos h1]
      simp [getProceeds, h1]
    · simp only [withdrawProceeds]
      rw [if_neg h1]
      simp [getProceeds, h1]
  · intro h
    simp only [withdrawProceeds] at h
    by_cases h1 : w.ledger.proceeds c = 0
    · rw [if_pos h1] at h; cases h
    · rw [if_neg h1] at h
      cases h
      simp [getProceeds]

/-- C6 (witness): the buyer, with nothing accrued, is rejected with
`NoProceeds`; after the seller's concrete withdrawal, the seller's proceeds
read zero. -/
theorem withdrawProceeds_noProceeds_and_reset_witness :
    withdrawProceeds buyerA w2 = .error .NoProceeds ∧
    getProceeds w3 sellerA = 0 :=
  ⟨(withdrawProceeds_noProceeds_and_reset buyerA w2 w2 []).1.mpr (by decide),
   (withdrawProceeds_noProceeds_and_reset sellerA w2 w3
      (stepsOf wdRes)).2 rfl⟩

end NftMarket
